import Mathlib

/-!
Shallow embedding of the audit-core feature pack.

Sources embedded here:
* `dist/server/lib/audit-context.js` — request-scoped audit context accessors.
* `dist/server/lib/auto-audit.js` — the best-effort automatic audit deriver
  (`writeAutoAuditEvent` and its helpers `methodToAction`,
  `extractEntityFromPath`, `singularize`, `buildSummary`, `truncatePayload`,
  `truncateText`, `extractErrorHint`).
* the strict write path `writeAuditEvent` (write-audit module with the
  extended event columns).
* `resolveAuditCoreScopeMode` (scope-mode module) with the permission-check
  collaborator abstracted as a `String → Bool` oracle.
* the `ldd` scope predicate compiled by `GET /api/audit`
  (`src/server/api/audit.ts`), including `fetchUserOrgScopeIds`.

JavaScript strings are modelled as Lean `String`s; all string operations are
re-implemented over the character list so that every definition evaluates
inside the kernel.  JSON values (request/response bodies) are modelled by the
mutual inductive `JsVal`; a value whose `JSON.stringify` would throw (cyclic
object, BigInt, ...) is represented by the constructor `junserializable`.
The storage collaborator is modelled by `InsertBehavior`: an insert either
succeeds or rejects with an error value.
-/

/-! ## String helpers (kernel-evaluable models of the JS string operations) -/

/-- Model of JavaScript `toUpperCase` (ASCII, as used on HTTP methods). -/
def upperStr (s : String) : String := String.mk (s.toList.map Char.toUpper)

/-- Model of JavaScript `toLowerCase` (ASCII). -/
def lowerStr (s : String) : String := String.mk (s.toList.map Char.toLower)

/-- Model of JavaScript `String.prototype.trim`. -/
def trimStr (s : String) : String :=
  String.mk (((s.toList.dropWhile Char.isWhitespace).reverse.dropWhile Char.isWhitespace).reverse)

/-- Model of JavaScript `slice(0, n)` for `0 ≤ n`. -/
def takeStr (s : String) (n : Nat) : String := String.mk (s.toList.take n)

/-- Drop the first `n` characters. -/
def dropStr (s : String) (n : Nat) : String := String.mk (s.toList.drop n)

/-- Model of JavaScript `slice(0, -n)`: drop the last `n` characters. -/
def dropRightStr (s : String) (n : Nat) : String :=
  String.mk (s.toList.take (s.toList.length - n))

/-- Does `s` start with `p`? (model of a `^...` anchored regex test). -/
def strStartsWith (s p : String) : Bool := p.toList.isPrefixOf s.toList

/-- Does `s` end with `p`? (model of `String.prototype.endsWith`). -/
def strEndsWith (s p : String) : Bool := p.toList.isSuffixOf s.toList

/-- Split a character list at a separator character (model of
JavaScript `String.prototype.split` with a single-character separator). -/
def splitCharsOn (sep : Char) : List Char → List Char → List String
  | [], cur => [String.mk cur.reverse]
  | c :: rest, cur =>
    if c = sep then String.mk cur.reverse :: splitCharsOn sep rest []
    else splitCharsOn sep rest (c :: cur)

/-- `s.split(sep)` as a list of strings. -/
def splitStrOn (s : String) (sep : Char) : List String := splitCharsOn sep s.toList []

/-! ## Audit request context (`audit-context.js`)

The AsyncLocalStorage store is modelled as an explicit `Option` value: `none`
is "no context established", `some c` is the per-request context. -/

/-- `AuditRequestContext` from `audit-context.ts`: correlation metadata plus
the mutable write counter. -/
structure AuditRequestContext where
  correlationId : String
  packName : String
  method : String
  path : String
  actorId : Option String
  ipAddress : Option String
  userAgent : Option String
  auditWrites : Nat
deriving DecidableEq, Repr

/-- `getAuditContext()`: the current store, or `null` outside any scope. -/
def getAuditContext (store : Option AuditRequestContext) : Option AuditRequestContext :=
  store

/-- `getAuditWrites()`: the context write counter, or `0` outside any scope. -/
def getAuditWrites (store : Option AuditRequestContext) : Nat :=
  match store with
  | some c => c.auditWrites
  | none => 0

/-- `markAuditWrite()`: increment the counter; a no-op outside any scope. -/
def markAuditWrite (store : Option AuditRequestContext) : Option AuditRequestContext :=
  match store with
  | none => none
  | some c => some { c with auditWrites := c.auditWrites + 1 }

/-! ## JSON value model -/

mutual
/-- A JavaScript value as it appears in request/response bodies.
`junserializable` stands for a value on which `JSON.stringify` throws. -/
inductive JsVal where
  | jbool : Bool → JsVal
  | jnum : Int → JsVal
  | jstr : String → JsVal
  | jarr : JsElems → JsVal
  | jobj : JsMembers → JsVal
  | junserializable : JsVal
deriving DecidableEq, Repr
/-- Elements of a JSON array. -/
inductive JsElems where
  | nil : JsElems
  | cons : JsVal → JsElems → JsElems
deriving DecidableEq, Repr
/-- Members of a JSON object, in insertion order (keys are distinct in a JS
object, so the first match is the only match). -/
inductive JsMembers where
  | nil : JsMembers
  | cons : String → JsVal → JsMembers → JsMembers
deriving DecidableEq, Repr
end

/-- JavaScript truthiness of a value. -/
def jsTruthy : JsVal → Bool
  | .jbool b => b
  | .jnum n => n != 0
  | .jstr s => s != ""
  | .jarr _ => true
  | .jobj _ => true
  | .junserializable => true

/-- Property access `obj[k]` on an object member list. -/
def jsMembersLookup : JsMembers → String → Option JsVal
  | .nil, _ => none
  | .cons k v rest, key => if k = key then some v else jsMembersLookup rest key

/-- Property access on an arbitrary value: `undefined` on non-objects. -/
def jsObjGet (v : JsVal) (k : String) : Option JsVal :=
  match v with
  | .jobj fs => jsMembersLookup fs k
  | _ => none

/-- JSON string quoting (escapes quote and backslash characters). -/
def jsonQuote (s : String) : String :=
  String.mk ('"' :: (s.toList.map fun c =>
    if c = '"' ∨ c = '\\' then ['\\', c] else [c]).flatten ++ ['"'])

mutual
/-- Model of `JSON.stringify`: `none` when serialization throws. -/
def jsStringify : JsVal → Option String
  | .jbool b => some (if b then "true" else "false")
  | .jnum n => some (toString n)
  | .jstr s => some (jsonQuote s)
  | .jarr xs =>
    match jsElemsStringify xs with
    | some parts => some ("[" ++ String.intercalate "," parts ++ "]")
    | none => none
  | .jobj fs =>
    match jsMembersStringify fs with
    | some parts => some ("\x7b" ++ String.intercalate "," parts ++ "\x7d")
    | none => none
  | .junserializable => none
/-- Serialize the elements of an array. -/
def jsElemsStringify : JsElems → Option (List String)
  | .nil => some []
  | .cons v rest =>
    match jsStringify v, jsElemsStringify rest with
    | some s, some tailStrs => some (s :: tailStrs)
    | _, _ => none
/-- Serialize the members of an object. -/
def jsMembersStringify : JsMembers → Option (List String)
  | .nil => some []
  | .cons k v rest =>
    match jsStringify v, jsMembersStringify rest with
    | some s, some tailStrs => some ((jsonQuote k ++ ":" ++ s) :: tailStrs)
    | _, _ => none
end

/-! ## Auto-audit helpers (`auto-audit.js`) -/

/-- `methodToAction` (the dist Level-2 version, which maps GET to `read`). -/
def methodToAction (method : String) : String :=
  let m := upperStr method
  if m = "GET" then "read"
  else if m = "POST" then "created"
  else if m = "PUT" ∨ m = "PATCH" then "updated"
  else if m = "DELETE" then "deleted"
  else lowerStr method

/-- `singularize`: the heuristic plural stripper. -/
def singularize (word : String) : String :=
  if strEndsWith word "ies" then dropRightStr word 3 ++ "y"
  else if strEndsWith word "ses" ∨ strEndsWith word "xes" ∨ strEndsWith word "zes" then
    dropRightStr word 2
  else if strEndsWith word "s" ∧ ¬ strEndsWith word "ss" then dropRightStr word 1
  else word

/-- Is every character a hex digit (either case)?  Used by the UUID test. -/
def isHexChar (c : Char) : Bool :=
  c.isDigit || ('a' ≤ c ∧ c ≤ 'f') || ('A' ≤ c ∧ c ≤ 'F')

/-- The anchored UUID regex `[0-9a-f]{8}-{4}-{4}-{4}-{12}` (case-insensitive).
Hex groups cannot contain a dash, so testing the dash-split parts is exactly
the regex test. -/
def isUuidStr (s : String) : Bool :=
  match splitStrOn s '-' with
  | [a, b, c, d, e] =>
    a.length = 8 ∧ b.length = 4 ∧ c.length = 4 ∧ d.length = 4 ∧ e.length = 12
      ∧ (a ++ b ++ c ++ d ++ e).toList.all isHexChar
  | _ => false

/-- The anchored numeric regex `\d+`. -/
def isNumericStr (s : String) : Bool := s ≠ "" ∧ s.toList.all Char.isDigit

/-- Does a path segment look like an entity id (UUID or numeric)? -/
def looksLikeId (s : String) : Bool := isUuidStr s || isNumericStr s

/-- Strip the leading `/api/` namespace (the anchored regex replace). -/
def stripApiNamespace (p : String) : String :=
  if strStartsWith p "/api/" then dropStr p 5 else p

/-- `cleaned.split('/').filter(Boolean)`. -/
def pathSegments (p : String) : List String :=
  (splitStrOn (stripApiNamespace p) '/').filter (· ≠ "")

/-- The segment-list core of `extractEntityFromPath`: first segment is the
pack name; the last remaining segment is the id if it looks like one, with
the singularized segment before it as the kind. -/
def extractFromSegments (segments : List String) : String × Option String :=
  match segments with
  | [] => ("unknown", none)
  | pack :: pathSegs =>
    match pathSegs.getLast? with
    | none => (pack, none)
    | some lastSeg =>
      if looksLikeId lastSeg then
        match pathSegs.dropLast.getLast? with
        | some kindSegment => (singularize kindSegment, some lastSeg)
        | none => (pack, some lastSeg)
      else (singularize lastSeg, none)

/-- `extractEntityFromPath`. -/
def extractEntityFromPath (path : String) : String × Option String :=
  extractFromSegments (pathSegments path)

/-- JavaScript falsiness of the nullable entity-id string. -/
def strOptFalsy : Option String → Bool
  | none => true
  | some s => s == ""

/-- `buildSummary` (`packName` is accepted and unused, as in the source). -/
def buildSummary (action : String) (entityKind : String) (entityId : Option String)
    (packName : String) : String :=
  let actionVerb := upperStr (takeStr action 1) ++ dropStr action 1
  if strOptFalsy entityId then actionVerb ++ " " ++ entityKind
  else actionVerb ++ " " ++ entityKind ++ " (" ++ entityId.getD "" ++ ")"

/-- The truncated-payload sentinel produced by `truncatePayload`:
either the payload kept unchanged, or the truncation marker object
(`_truncated: true`, `_originalLength`, `_preview`), or the serialization
error marker. -/
inductive TruncPayload where
  | kept : JsVal → TruncPayload
  | truncated : Nat → String → TruncPayload
  | errorMarker : TruncPayload
deriving DecidableEq, Repr

/-- `truncatePayload(payload, maxLength)` (the deriver passes the default
`maxLength = 4000`). -/
def truncatePayload (payload : Option JsVal) (maxLength : Nat) : Option TruncPayload :=
  match payload with
  | none => none
  | some p =>
    match jsStringify p with
    | none => some .errorMarker
    | some str =>
      if str.length ≤ maxLength then some (.kept p)
      else some (.truncated str.length (takeStr str maxLength))

/-- `truncateText(s, maxLength)` (the deriver passes the default 160). -/
def truncateText (s : String) (maxLength : Nat) : String :=
  let trimmed := trimStr s
  if trimmed.length ≤ maxLength then trimmed
  else takeStr trimmed (maxLength - 1) ++ "…"

/-- First candidate that is a string with non-empty trim, trimmed. -/
def firstTrimmedString : List (Option JsVal) → Option String
  | [] => none
  | c :: cs =>
    match c with
    | some (.jstr s) => if trimStr s ≠ "" then some (trimStr s) else firstTrimmedString cs
    | _ => firstTrimmedString cs

/-- `extractErrorHint(responseBody)`. -/
def extractErrorHint : Option JsVal → Option String
  | none => none
  | some (.jstr s) => if trimStr s ≠ "" then some (trimStr s) else none
  | some (.jbool b) => some (if b then "true" else "false")
  | some (.jnum n) => some (toString n)
  | some (.jarr _) => none
  | some .junserializable => none
  | some (.jobj fs) =>
    firstTrimmedString
      [jsMembersLookup fs "error", jsMembersLookup fs "message",
       jsMembersLookup fs "detail",
       (jsMembersLookup fs "exception").bind (jsObjGet · "message"),
       (jsMembersLookup fs "exception").bind (jsObjGet · "name")]

/-! ## The automatic audit deriver (`writeAutoAuditEvent`, dist version) -/

/-- One entry of the `slowQueries` observability input. -/
structure SlowQuery where
  durationMs : Int
  query : String
deriving DecidableEq, Repr

/-- Insert a slow query into a list already sorted by descending duration
(model of the stable JS `sort((a, b) => b.durationMs - a.durationMs)`). -/
def insertSlowDesc (q : SlowQuery) : List SlowQuery → List SlowQuery
  | [] => [q]
  | x :: xs => if q.durationMs ≤ x.durationMs then x :: insertSlowDesc q xs
               else q :: x :: xs

/-- Sort slow queries by descending duration. -/
def sortSlowDesc (l : List SlowQuery) : List SlowQuery :=
  l.foldr insertSlowDesc []

/-- The deriver's input (`AutoAuditInput`, Level-2 dist version). -/
structure AutoAuditInput where
  responseStatus : Int
  responseBody : Option JsVal
  requestBody : Option JsVal
  durationMs : Option Int
  dbTimeMs : Option Int
  moduleTimeMs : Option Int
  slowQueries : Option (List SlowQuery)
  actorId : Option String
deriving DecidableEq, Repr

/-- The structured `details` JSONB payload built by the deriver.
A `none`/`false` field models the key being absent from the object. -/
structure AutoDetails where
  responseStatus : Int
  durationMs : Option Int
  success : Bool
  dbTimeMs : Option Int
  moduleTimeMs : Option Int
  slowQueries : Option (List SlowQuery)
  requestBody : Option TruncPayload
  responseBody : Option TruncPayload
  isSlow : Bool
deriving DecidableEq, Repr

/-- The row inserted into `audit_events` by the deriver. -/
structure AutoAuditRow where
  entityKind : String
  entityId : Option String
  action : String
  summary : String
  details : AutoDetails
  actorId : String
  actorName : Option String
  actorType : String
  correlationId : String
  packName : String
  method : String
  path : String
  ipAddress : Option String
  userAgent : Option String
deriving DecidableEq, Repr

/-- The mutating methods recognized by the deriver. -/
def writeMethods : List String := ["POST", "PUT", "PATCH", "DELETE"]

/-- Action classification inside the deriver: base action from the method,
then `_rejected` for client errors and `_failed` for every other non-2xx
status. -/
def autoAction (method : String) (status : Int) : String :=
  let action := methodToAction method
  if 200 ≤ status ∧ status < 300 then action
  else if 400 ≤ status ∧ status < 500 then action ++ "_rejected"
  else action ++ "_failed"

/-- The body of the deriver's `try` block up to the insert: the row it
derives from the context and the completed request's data. -/
def deriveAutoRow (ctx : AuditRequestContext) (input : AutoAuditInput) : AutoAuditRow :=
  let method := upperStr ctx.method
  let isSuccess := 200 ≤ input.responseStatus ∧ input.responseStatus < 300
  let action := autoAction method input.responseStatus
  let extracted := extractEntityFromPath ctx.path
  let entityKind := extracted.1
  let entityId0 := extracted.2
  let entityId :=
    if method = "POST" ∧ strOptFalsy entityId0
        ∧ (input.responseBody.elim false jsTruthy) ∧ isSuccess then
      match input.responseBody with
      | some (.jobj fs) =>
        match jsMembersLookup fs "id" with
        | some (.jstr s) => if s ≠ "" then some s else entityId0
        | _ => entityId0
      | _ => entityId0
    else entityId0
  let details : AutoDetails :=
    { responseStatus := input.responseStatus
      durationMs := input.durationMs
      success := decide isSuccess
      dbTimeMs := input.dbTimeMs
      moduleTimeMs := input.moduleTimeMs
      slowQueries :=
        match input.slowQueries with
        | some l => if l ≠ [] then some ((sortSlowDesc l).take 5) else none
        | none => none
      requestBody :=
        match input.requestBody with
        | some b => truncatePayload (some b) 4000
        | none => none
      responseBody :=
        match input.responseBody with
        | some b => truncatePayload (some b) 4000
        | none => none
      isSlow :=
        match input.durationMs with
        | some d => decide (d ≠ 0 ∧ 500 < d)
        | none => false }
  let summary0 := buildSummary action entityKind entityId ctx.packName
  let summary :=
    if isSuccess then summary0
    else
      match extractErrorHint input.responseBody with
      | some hint => summary0 ++ " — " ++ truncateText hint 160
      | none => summary0
  { entityKind := entityKind
    entityId := entityId
    action := action
    summary := summary
    details := details
    actorId := (input.actorId.orElse fun _ => ctx.actorId).getD "system"
    actorName := none
    actorType := "user"
    correlationId := ctx.correlationId
    packName := ctx.packName
    method := ctx.method
    path := ctx.path
    ipAddress := ctx.ipAddress
    userAgent := ctx.userAgent }

/-- Behaviour of the storage collaborator on one insert attempt: succeed, or
reject with an error value (unavailable database, driver failure, ...). -/
inductive InsertBehavior where
  | ok : InsertBehavior
  | fails : String → InsertBehavior
deriving DecidableEq, Repr

/-- The state the audit subsystem can affect for one request: the current
context store and the append-only event log, with row type `ρ`. -/
structure AuditState (ρ : Type) where
  ctx : Option AuditRequestContext
  events : List ρ
deriving DecidableEq, Repr

/-- `writeAutoAuditEvent(input)` (dist Level-2 version): eligibility checks,
then derive and insert; any storage failure is swallowed and reported as
`false`. Returns the written flag and the post-state. -/
def writeAutoAuditEvent (insertB : InsertBehavior) (st : AuditState AutoAuditRow)
    (input : AutoAuditInput) : Bool × AuditState AutoAuditRow :=
  match getAuditContext st.ctx with
  | none => (false, st)
  | some ctx =>
    if ctx.auditWrites > 0 then (false, st)
    else
      let method := upperStr ctx.method
      if method = "" then (false, st)
      else
        let isWrite := method ∈ writeMethods
        let isError := 400 ≤ input.responseStatus
        if ¬ isWrite ∧ ¬ isError then (false, st)
        else
          match insertB with
          | .fails _ => (false, st)
          | .ok =>
            (true,
             { ctx := markAuditWrite st.ctx
               events := st.events ++ [deriveAutoRow ctx input] })

/-! ## The strict write path (`writeAuditEvent`) -/

/-- The caller-supplied event input of the strict write path
(`WriteAuditEventInput` with the extended security columns). -/
structure WriteAuditEventInput where
  entityKind : String
  entityId : Option String
  action : String
  summary : String
  details : Option JsVal
  changes : Option JsVal
  eventType : Option String
  outcome : Option String
  targetKind : Option String
  targetId : Option String
  targetName : Option String
  sessionId : Option String
  authMethod : Option String
  mfaMethod : Option String
  errorCode : Option String
  errorMessage : Option String
  actorId : String
  actorName : Option String
  actorType : Option String
  correlationId : Option String
  packName : Option String
  method : Option String
  path : Option String
  ipAddress : Option String
  userAgent : Option String
deriving DecidableEq, Repr

/-- The row inserted by the strict write path. -/
structure StrictAuditRow where
  entityKind : String
  entityId : Option String
  action : String
  summary : String
  details : Option JsVal
  changes : Option JsVal
  eventType : String
  outcome : Option String
  targetKind : Option String
  targetId : Option String
  targetName : Option String
  sessionId : Option String
  authMethod : Option String
  mfaMethod : Option String
  errorCode : Option String
  errorMessage : Option String
  actorId : String
  actorName : Option String
  actorType : String
  correlationId : Option String
  packName : Option String
  method : Option String
  path : Option String
  ipAddress : Option String
  userAgent : Option String
deriving DecidableEq, Repr

/-- The values object passed to the insert by `writeAuditEvent`: explicit
input wins, correlation metadata defaults from the current context, and
`eventType` defaults to the action when absent or blank. -/
def buildStrictRow (ctx : Option AuditRequestContext) (input : WriteAuditEventInput) :
    StrictAuditRow :=
  { entityKind := input.entityKind
    entityId := input.entityId
    action := input.action
    summary := input.summary
    details := input.details
    changes := input.changes
    eventType :=
      match input.eventType with
      | some s => if trimStr s ≠ "" then trimStr s else input.action
      | none => input.action
    outcome := input.outcome
    targetKind := input.targetKind
    targetId := input.targetId
    targetName := input.targetName
    sessionId := input.sessionId
    authMethod := input.authMethod
    mfaMethod := input.mfaMethod
    errorCode := input.errorCode
    errorMessage := input.errorMessage
    actorId := input.actorId
    actorName := input.actorName
    actorType := input.actorType.getD "user"
    correlationId := input.correlationId.orElse fun _ => (ctx.map (·.correlationId))
    packName := input.packName.orElse fun _ => (ctx.map (·.packName))
    method := input.method.orElse fun _ => (ctx.map (·.method))
    path := input.path.orElse fun _ => (ctx.map (·.path))
    ipAddress := input.ipAddress.orElse fun _ => (ctx.bind (·.ipAddress))
    userAgent := input.userAgent.orElse fun _ => (ctx.bind (·.userAgent)) }

/-- `writeAuditEvent(dbOrTx, input)`: insert the row built from the input and
the context read at entry, then mark the write.  An insert failure propagates
(first component `.error e`) and leaves the state untouched — the counter is
only incremented after the insert succeeded. -/
def writeAuditEvent (insertB : InsertBehavior) (st : AuditState StrictAuditRow)
    (input : WriteAuditEventInput) : Except String Unit × AuditState StrictAuditRow :=
  let ctx := getAuditContext st.ctx
  match insertB with
  | .fails e => (.error e, st)
  | .ok =>
    (.ok (),
     { ctx := markAuditWrite st.ctx
       events := st.events ++ [buildStrictRow ctx input] })

/-! ## Scope-mode resolution (`resolveAuditCoreScopeMode`) -/

/-- The read-visibility modes. -/
inductive ScopeMode where
  | none : ScopeMode
  | own : ScopeMode
  | ldd : ScopeMode
  | any : ScopeMode
deriving DecidableEq, Repr

/-- Name of a scope mode as it appears in the permission key. -/
def scopeModeName : ScopeMode → String
  | .none => "none"
  | .own => "own"
  | .ldd => "ldd"
  | .any => "any"

/-- The permission key `audit-core.<verb>.scope.<mode>`. -/
def scopeModeKey (verb : String) (m : ScopeMode) : String :=
  "audit-core." ++ verb ++ ".scope." ++ scopeModeName m

/-- The fixed probe order (most restrictive first). -/
def scopeModeOrder : List ScopeMode := [.none, .own, .ldd, .any]

/-- `resolveAuditCoreScopeMode(request, {verb})` with the permission-check
collaborator `checkAuditCoreAction` abstracted as the oracle `granted`
(key ↦ `res.ok`): first granted mode in the fixed order, else `own`. -/
def resolveAuditCoreScopeMode (granted : String → Bool) (verb : String) : ScopeMode :=
  match scopeModeOrder.find? (fun m => granted (scopeModeKey verb m)) with
  | some m => m
  | .none => .own

/-! ## The `ldd` scope predicate of `GET /api/audit` -/

/-- One row of the `userOrgAssignments` collaborator table. -/
structure OrgAssignment where
  userKey : String
  divisionId : Option String
  departmentId : Option String
  locationId : Option String
deriving DecidableEq, Repr

/-- One step of the id-collection loop: push a non-empty id not seen yet
(the `if (value && !list.includes(value)) list.push(value)` body). -/
def collectIdsStep (acc : List String) : Option String → List String
  | some v => if v ≠ "" ∧ v ∉ acc then acc ++ [v] else acc
  | none => acc

/-- Collect distinct non-empty ids from one column. -/
def collectIds (l : List (Option String)) : List String :=
  l.foldl collectIdsStep []

/-- The caller's organizational scope ids, one list per dimension. -/
structure OrgScopeIds where
  divisionIds : List String
  departmentIds : List String
  locationIds : List String
deriving DecidableEq, Repr

/-- `fetchUserOrgScopeIds(db, userKey)`: distinct division/department/location
ids over the caller's assignment rows. -/
def fetchUserOrgScopeIds (rows : List OrgAssignment) (userKey : String) : OrgScopeIds :=
  let mine := rows.filter (fun r => r.userKey == userKey)
  { divisionIds := collectIds (mine.map (·.divisionId))
    departmentIds := collectIds (mine.map (·.departmentId))
    locationIds := collectIds (mine.map (·.locationId)) }

/-- The `own` scope condition compiled by the route:
`user.sub ? eq(actorId, user.sub) : false` under SQL null semantics. -/
def ownScopePredicate (sub : String) (evActorId : Option String) : Bool :=
  if sub ≠ "" then evActorId == some sub else false

/-- One correlated `exists` sub-predicate: some assignment row of the event's
actor has its id for the given dimension among the caller's ids.  A SQL
`NULL` actor matches no row. -/
def existsOrgMatch (rows : List OrgAssignment) (dim : OrgAssignment → Option String)
    (ids : List String) (evActorId : Option String) : Bool :=
  match evActorId with
  | none => false
  | some aid =>
    rows.any fun r =>
      r.userKey == aid &&
        (match dim r with
         | some v => ids.contains v
         | none => false)

/-- The full `ldd` scope predicate compiled by `GET /api/audit`: the `own`
condition OR-ed with the per-dimension `exists` parts, each part included
only when the caller has ids in that dimension; with no parts it falls back
to `own` alone. -/
def lddScopePredicate (rows : List OrgAssignment) (sub : String)
    (evActorId : Option String) : Bool :=
  let scope := fetchUserOrgScopeIds rows sub
  let ownCondition := ownScopePredicate sub evActorId
  let lddParts : List Bool :=
    (if scope.divisionIds ≠ [] then
      [existsOrgMatch rows (·.divisionId) scope.divisionIds evActorId] else []) ++
    (if scope.departmentIds ≠ [] then
      [existsOrgMatch rows (·.departmentId) scope.departmentIds evActorId] else []) ++
    (if scope.locationIds ≠ [] then
      [existsOrgMatch rows (·.locationId) scope.locationIds evActorId] else [])
  if lddParts ≠ [] then ownCondition || lddParts.any id else ownCondition

/-! ## Sample fixtures used by witnesses and counterexamples -/

/-- A request context for a GET request that returned a server error. -/
def sampleGetCtx : AuditRequestContext :=
  { correlationId := "corr-get", packName := "crm", method := "GET"
    path := "/api/crm/contacts/123", actorId := some "alice"
    ipAddress := none, userAgent := none, auditWrites := 0 }

/-- A request context for a POST request. -/
def samplePostCtx : AuditRequestContext :=
  { correlationId := "corr-post", packName := "crm", method := "POST"
    path := "/api/crm/contacts", actorId := none
    ipAddress := none, userAgent := none, auditWrites := 0 }

/-- A minimal deriver input with a 200 status and no optional data. -/
def sampleOkInput : AutoAuditInput :=
  { responseStatus := 200, responseBody := none, requestBody := none
    durationMs := none, dbTimeMs := none, moduleTimeMs := none
    slowQueries := none, actorId := none }

/-- A deriver input reporting a 500 server error. -/
def sampleErrorInput : AutoAuditInput :=
  { sampleOkInput with responseStatus := 500 }

/-- A deriver input for a created entity whose request body cannot be
serialized. -/
def sampleUnserializableInput : AutoAuditInput :=
  { sampleOkInput with responseStatus := 201, requestBody := some .junserializable }

/-- A minimal strict-write input: only the required fields are supplied, all
context-defaultable fields are absent. -/
def sampleStrictInput : WriteAuditEventInput :=
  { entityKind := "contact", entityId := some "123", action := "updated"
    summary := "Updated contact (123)", details := none, changes := none
    eventType := none, outcome := none, targetKind := none, targetId := none
    targetName := none, sessionId := none, authMethod := none, mfaMethod := none
    errorCode := none, errorMessage := none, actorId := "alice", actorName := none
    actorType := none, correlationId := none, packName := none, method := none
    path := none, ipAddress := none, userAgent := none }

/-! ## Claims -/

/-- Claim C10: outside any established audit context every context accessor
is a total no-throw no-op: `getAuditContext()` returns null,
`getAuditWrites()` returns 0, and `markAuditWrite()` changes nothing and
returns normally. -/
theorem contextAccessors_no_context :
    getAuditContext none = none ∧ getAuditWrites none = 0 ∧ markAuditWrite none = none :=
  ⟨rfl, rfl, rfl⟩

/-- Claim C1: the deriver performs no insert and returns `false` whenever
there is no audit context, or the context's write counter is positive, or
the request is neither a mutating method nor an error response; in
particular an explicit write (counter already incremented) suppresses the
automatic one. -/
theorem autoAudit_skip_conditions :
    ∀ (b : InsertBehavior) (st : AuditState AutoAuditRow) (input : AutoAuditInput),
      (st.ctx = none ∨
        ∃ c, st.ctx = some c ∧
          (c.auditWrites > 0 ∨
            (upperStr c.method ∉ writeMethods ∧ input.responseStatus < 400))) →
      writeAutoAuditEvent b st input = (false, st) := by
  intro b st input h
  rcases h with h | ⟨c, hc, h⟩
  · simp [writeAutoAuditEvent, getAuditContext, h]
  · rcases h with hw | ⟨hm, hs⟩
    · simp [writeAutoAuditEvent, getAuditContext, hc, hw]
    · by_cases hw : c.auditWrites > 0
      · simp [writeAutoAuditEvent, getAuditContext, hc, hw]
      · by_cases hme : upperStr c.method = ""
        · simp [writeAutoAuditEvent, getAuditContext, hc, hw, hme]
        · have hie : ¬ (400 ≤ input.responseStatus) := by omega
          simp [writeAutoAuditEvent, getAuditContext, hc, hw, hme, hm, hie]

/-- Claim C1 witness: a context whose counter was already incremented by an
explicit write makes the deriver a no-op even for a mutating method. -/
theorem autoAudit_skip_conditions_witness :
    writeAutoAuditEvent .ok
      { ctx := some { samplePostCtx with auditWrites := 1 }, events := [] } sampleOkInput
      = (false, { ctx := some { samplePostCtx with auditWrites := 1 }, events := [] }) :=
  autoAudit_skip_conditions .ok _ sampleOkInput
    (Or.inr ⟨_, rfl, Or.inl (by decide)⟩)

/-- Claim C2 counterexample: when every probe is granted — in particular
both `own` and `any` — the resolved mode is `none`, not `own`, because
`none` comes first in the probe order. -/
theorem resolveScopeMode_all_granted_counterexample :
    (fun _ => true : String → Bool) (scopeModeKey "read" .own) = true
    ∧ (fun _ => true : String → Bool) (scopeModeKey "read" .any) = true
    ∧ resolveAuditCoreScopeMode (fun _ => true) "read" = ScopeMode.none
    ∧ ScopeMode.none ≠ ScopeMode.own :=
  ⟨rfl, rfl, rfl, by decide⟩

/-- Claim C2 as amended: the resolver probes `audit-core.<verb>.scope.<mode>`
for the modes in the exact order none, own, ldd, any, returns the first
granted mode, and defaults to `own` when none is granted; consequently a
caller granted both `own` and `any` (and not `none`) resolves to `own`, and
the result is `any` only when `any` is the first granted mode in that
order. -/
theorem resolveScopeMode_first_granted :
    ∀ (granted : String → Bool) (verb : String),
      (granted (scopeModeKey verb .none) = true →
        resolveAuditCoreScopeMode granted verb = .none)
      ∧ (granted (scopeModeKey verb .none) = false →
         granted (scopeModeKey verb .own) = true →
          resolveAuditCoreScopeMode granted verb = .own)
      ∧ (granted (scopeModeKey verb .none) = false →
         granted (scopeModeKey verb .own) = false →
         granted (scopeModeKey verb .ldd) = true →
          resolveAuditCoreScopeMode granted verb = .ldd)
      ∧ (granted (scopeModeKey verb .none) = false →
         granted (scopeModeKey verb .own) = false →
         granted (scopeModeKey verb .ldd) = false →
         granted (scopeModeKey verb .any) = true →
          resolveAuditCoreScopeMode granted verb = .any)
      ∧ (granted (scopeModeKey verb .none) = false →
         granted (scopeModeKey verb .own) = false →
         granted (scopeModeKey verb .ldd) = false →
         granted (scopeModeKey verb .any) = false →
          resolveAuditCoreScopeMode granted verb = .own)
      ∧ (granted (scopeModeKey verb .own) = true →
         granted (scopeModeKey verb .none) = false →
          resolveAuditCoreScopeMode granted verb = .own)
      ∧ (resolveAuditCoreScopeMode granted verb = .any →
          granted (scopeModeKey verb .none) = false
          ∧ granted (scopeModeKey verb .own) = false
          ∧ granted (scopeModeKey verb .ldd) = false
          ∧ granted (scopeModeKey verb .any) = true) := by
  intro granted verb
  refine ⟨?_, ?_, ?_, ?_, ?_, ?_, ?_⟩
  · intro h1
    simp [resolveAuditCoreScopeMode, scopeModeOrder, List.find?, h1]
  · intro h1 h2
    simp [resolveAuditCoreScopeMode, scopeModeOrder, List.find?, h1, h2]
  · intro h1 h2 h3
    simp [resolveAuditCoreScopeMode, scopeModeOrder, List.find?, h1, h2, h3]
  · intro h1 h2 h3 h4
    simp [resolveAuditCoreScopeMode, scopeModeOrder, List.find?, h1, h2, h3, h4]
  · intro h1 h2 h3 h4
    simp [resolveAuditCoreScopeMode, scopeModeOrder, List.find?, h1, h2, h3, h4]
  · intro h2 h1
    simp [resolveAuditCoreScopeMode, scopeModeOrder, List.find?, h1, h2]
  · intro h
    cases h1 : granted (scopeModeKey verb .none) with
    | true => simp [resolveAuditCoreScopeMode, scopeModeOrder, List.find?, h1] at h
    | false =>
    cases h2 : granted (scopeModeKey verb .own) with
    | true => simp [resolveAuditCoreScopeMode, scopeModeOrder, List.find?, h1, h2] at h
    | false =>
    cases h3 : granted (scopeModeKey verb .ldd) with
    | true => simp [resolveAuditCoreScopeMode, scopeModeOrder, List.find?, h1, h2, h3] at h
    | false =>
    cases h4 : granted (scopeModeKey verb .any) with
    | true => exact ⟨rfl, rfl, rfl, rfl⟩
    | false =>
      simp [resolveAuditCoreScopeMode, scopeModeOrder, List.find?, h1, h2, h3, h4] at h

/-- Claim C2 witness: a caller granted exactly `own` and `any` resolves to
`own`. -/
theorem resolveScopeMode_first_granted_witness :
    resolveAuditCoreScopeMode
      (fun k => k == scopeModeKey "read" .own || k == scopeModeKey "read" .any) "read"
      = .own :=
  (resolveScopeMode_first_granted
      (fun k => k == scopeModeKey "read" .own || k == scopeModeKey "read" .any)
      "read").2.2.2.2.2.1 (by decide) (by decide)

/-- Claim C4: on a successful insert the strict write path increments the
context's write counter by exactly one (and appends exactly the built row);
on a failed insert the failure propagates unmodified and the state — counter
included — is untouched. -/
theorem strictWrite_counter_discipline :
    (∀ (st : AuditState StrictAuditRow) (input : WriteAuditEventInput)
        (c : AuditRequestContext), st.ctx = some c →
        writeAuditEvent .ok st input
          = (.ok (), { ctx := some { c with auditWrites := c.auditWrites + 1 }
                       events := st.events ++ [buildStrictRow (some c) input] }))
    ∧ (∀ (e : String) (st : AuditState StrictAuditRow) (input : WriteAuditEventInput),
        writeAuditEvent (.fails e) st input = (.error e, st)) := by
  constructor
  · intro st input c hc
    simp [writeAuditEvent, getAuditContext, markAuditWrite, hc]
  · intro e st input
    rfl

/-- Claim C4 witness: concrete success increments the counter to 1; a
concrete failure returns the same error and leaves the state unchanged. -/
theorem strictWrite_counter_discipline_witness :
    writeAuditEvent .ok { ctx := some samplePostCtx, events := [] } sampleStrictInput
      = (.ok (), { ctx := some { samplePostCtx with auditWrites := 1 }
                   events := [buildStrictRow (some samplePostCtx) sampleStrictInput] })
    ∧ writeAuditEvent (.fails "db down") { ctx := some samplePostCtx, events := [] }
        sampleStrictInput
      = (.error "db down", { ctx := some samplePostCtx, events := [] }) :=
  ⟨strictWrite_counter_discipline.1 _ sampleStrictInput samplePostCtx rfl,
   strictWrite_counter_discipline.2 "db down" _ sampleStrictInput⟩

/-- Claim C9: inside an established context, every omitted correlation field
of the strict write input defaults to the context's value (and is null only
when the context also lacks it); an explicitly supplied value always wins;
and the stored `eventType` is the trimmed input `eventType` when non-blank,
otherwise the input action. -/
theorem strictWrite_context_defaults :
    ∀ (st : AuditState StrictAuditRow) (input : WriteAuditEventInput)
      (c : AuditRequestContext), st.ctx = some c →
      ((input.correlationId = none →
          (buildStrictRow st.ctx input).correlationId = some c.correlationId)
       ∧ (input.packName = none → (buildStrictRow st.ctx input).packName = some c.packName)
       ∧ (input.method = none → (buildStrictRow st.ctx input).method = some c.method)
       ∧ (input.path = none → (buildStrictRow st.ctx input).path = some c.path)
       ∧ (input.ipAddress = none → (buildStrictRow st.ctx input).ipAddress = c.ipAddress)
       ∧ (input.userAgent = none → (buildStrictRow st.ctx input).userAgent = c.userAgent)
       ∧ (∀ v, input.correlationId = some v →
            (buildStrictRow st.ctx input).correlationId = some v)
       ∧ (∀ v, input.packName = some v → (buildStrictRow st.ctx input).packName = some v)
       ∧ (∀ v, input.method = some v → (buildStrictRow st.ctx input).method = some v)
       ∧ (∀ v, input.path = some v → (buildStrictRow st.ctx input).path = some v)
       ∧ (∀ v, input.ipAddress = some v → (buildStrictRow st.ctx input).ipAddress = some v)
       ∧ (∀ v, input.userAgent = some v → (buildStrictRow st.ctx input).userAgent = some v)
       ∧ (∀ s, input.eventType = some s → trimStr s ≠ "" →
            (buildStrictRow st.ctx input).eventType = trimStr s)
       ∧ (∀ s, input.eventType = some s → trimStr s = "" →
            (buildStrictRow st.ctx input).eventType = input.action)
       ∧ (input.eventType = none → (buildStrictRow st.ctx input).eventType = input.action)
       ∧ (writeAuditEvent .ok st input).2.events
           = st.events ++ [buildStrictRow st.ctx input]) := by
  intro st input c hc
  refine ⟨?_, ?_, ?_, ?_, ?_, ?_, ?_, ?_, ?_, ?_, ?_, ?_, ?_, ?_, ?_, ?_⟩
  · intro h; simp [buildStrictRow, h, hc, Option.orElse]
  · intro h; simp [buildStrictRow, h, hc, Option.orElse]
  · intro h; simp [buildStrictRow, h, hc, Option.orElse]
  · intro h; simp [buildStrictRow, h, hc, Option.orElse]
  · intro h; simp [buildStrictRow, h, hc, Option.orElse]
  · intro h; simp [buildStrictRow, h, hc, Option.orElse]
  · intro v h; simp [buildStrictRow, h, Option.orElse]
  · intro v h; simp [buildStrictRow, h, Option.orElse]
  · intro v h; simp [buildStrictRow, h, Option.orElse]
  · intro v h; simp [buildStrictRow, h, Option.orElse]
  · intro v h; simp [buildStrictRow, h, Option.orElse]
  · intro v h; simp [buildStrictRow, h, Option.orElse]
  · intro s h hs; simp [buildStrictRow, h, hs]
  · intro s h hs; simp [buildStrictRow, h, hs]
  · intro h; simp [buildStrictRow, h]
  · simp [writeAuditEvent, getAuditContext]

/-- Claim C9 witness: with every defaultable field omitted, the built row
inherits the context's correlation metadata, and `eventType` falls back to
the action. -/
theorem strictWrite_context_defaults_witness :
    (buildStrictRow (some samplePostCtx) sampleStrictInput).correlationId
      = some "corr-post"
    ∧ (buildStrictRow (some samplePostCtx) sampleStrictInput).packName = some "crm"
    ∧ (buildStrictRow (some samplePostCtx) sampleStrictInput).eventType = "updated" := by
  have h := strictWrite_context_defaults
    { ctx := some samplePostCtx, events := [] } sampleStrictInput samplePostCtx rfl
  exact ⟨h.1 rfl, h.2.1 rfl, h.2.2.2.2.2.2.2.2.2.2.2.2.2.2.1 rfl⟩

/-- Claim C6 counterexample: the deriver audits erroring GET requests, and
for them the dist `methodToAction` yields `read`, not the lowercased method
name `get` — so a derived event for a failing GET carries the action
`read_failed` where the claim predicts `get_failed`. -/
theorem autoAudit_get_action_counterexample :
    (writeAutoAuditEvent .ok { ctx := some sampleGetCtx, events := [] } sampleErrorInput).1
      = true
    ∧ (writeAutoAuditEvent .ok { ctx := some sampleGetCtx, events := [] }
        sampleErrorInput).2.events.map (·.action) = ["read_failed"]
    ∧ methodToAction "GET" = "read"
    ∧ lowerStr "GET" = "get"
    ∧ ("read_failed" : String) ≠ "get_failed" :=
  ⟨rfl, rfl, rfl, rfl, by decide⟩

/-- Claim C6 as amended: the derived action maps GET to `read`, POST to
`created`, PUT/PATCH to `updated`, DELETE to `deleted`, and any other method
to its lowercased name; a 2xx status adds no suffix, a 4xx status appends
`_rejected`, and a 5xx status appends `_failed`; and every derived row's
action is exactly this classification of the context method and response
status. -/
theorem autoAudit_action_mapping :
    methodToAction "GET" = "read"
    ∧ methodToAction "POST" = "created"
    ∧ methodToAction "PUT" = "updated"
    ∧ methodToAction "PATCH" = "updated"
    ∧ methodToAction "DELETE" = "deleted"
    ∧ (∀ m : String, upperStr m ∉ (["GET", "POST", "PUT", "PATCH", "DELETE"] : List String) →
        methodToAction m = lowerStr m)
    ∧ (∀ (m : String) (s : Int), 200 ≤ s → s < 300 → autoAction m s = methodToAction m)
    ∧ (∀ (m : String) (s : Int), 400 ≤ s → s < 500 →
        autoAction m s = methodToAction m ++ "_rejected")
    ∧ (∀ (m : String) (s : Int), 500 ≤ s → autoAction m s = methodToAction m ++ "_failed")
    ∧ (∀ (c : AuditRequestContext) (input : AutoAuditInput),
        (deriveAutoRow c input).action = autoAction (upperStr c.method) input.responseStatus) := by
  refine ⟨rfl, rfl, rfl, rfl, rfl, ?_, ?_, ?_, ?_, ?_⟩
  · intro m hm
    simp only [List.mem_cons, List.mem_singleton, not_or] at hm
    obtain ⟨h1, h2, h3, h4, h5, -⟩ := hm
    simp [methodToAction, h1, h2, h3, h4, h5]
  · intro m s h1 h2
    have hs : 200 ≤ s ∧ s < 300 := ⟨h1, h2⟩
    simp [autoAction, hs]
  · intro m s h1 h2
    have hs : ¬ (200 ≤ s ∧ s < 300) := by omega
    have hr : 400 ≤ s ∧ s < 500 := ⟨h1, h2⟩
    simp [autoAction, hs, hr]
  · intro m s h1
    have hs : ¬ (200 ≤ s ∧ s < 300) := by omega
    have hr : ¬ (400 ≤ s ∧ s < 500) := by omega
    simp [autoAction, hs, hr]
  · intro c input
    rfl

/-- Claim C6 witness: concrete instances of the amended mapping — a 422 POST
derives `created_rejected`, a 204 DELETE derives `deleted`. -/
theorem autoAudit_action_mapping_witness :
    autoAction "POST" 422 = "created_rejected"
    ∧ autoAction "DELETE" 204 = "deleted"
    ∧ methodToAction "OPTIONS" = lowerStr "OPTIONS" := by
  refine ⟨?_, ?_, ?_⟩
  · have h := autoAudit_action_mapping.2.2.2.2.2.2.2.1 "POST" 422 (by decide) (by decide)
    rw [h, autoAudit_action_mapping.2.1]; rfl
  · have h := autoAudit_action_mapping.2.2.2.2.2.2.1 "DELETE" 204 (by decide) (by decide)
    rw [h, autoAudit_action_mapping.2.2.2.2.1]
  · exact autoAudit_action_mapping.2.2.2.2.2.1 "OPTIONS" (by decide)

/-- The deriver's `details.requestBody` is exactly the independent truncation
of the input request body (definitional projection of `deriveAutoRow`). -/
theorem deriveAutoRow_requestBody (c : AuditRequestContext) (input : AutoAuditInput) :
    (deriveAutoRow c input).details.requestBody
      = match input.requestBody with
        | some b => truncatePayload (some b) 4000
        | none => none := rfl

/-- The deriver's `details.responseBody` is exactly the independent truncation
of the input response body. -/
theorem deriveAutoRow_responseBody (c : AuditRequestContext) (input : AutoAuditInput) :
    (deriveAutoRow c input).details.responseBody
      = match input.responseBody with
        | some b => truncatePayload (some b) 4000
        | none => none := rfl

/-- Claim C3 counterexample: a request-body serialization failure does not
make the deriver report `false` — the payload is replaced by the error
marker and the event is still written (`true`), contradicting the claim that
any failure during derivation yields 'not written'. -/
theorem autoAudit_serialization_failure_counterexample :
    jsStringify .junserializable = none
    ∧ (writeAutoAuditEvent .ok { ctx := some samplePostCtx, events := [] }
        sampleUnserializableInput).1 = true
    ∧ (writeAutoAuditEvent .ok { ctx := some samplePostCtx, events := [] }
        sampleUnserializableInput).2.events.map (fun r => r.details.requestBody)
        = [some .errorMarker] :=
  ⟨rfl, rfl, rfl⟩

/-- Claim C3 as amended: the deriver is total (always completes with a
boolean); any storage failure is swallowed — the result is `false` and the
state (context and event store) is untouched; and whenever the result is
`false` nothing was changed at all.  A payload serialization failure,
however, does not abort the write: the payload is replaced by an error
marker in the details and the event is still persisted. -/
theorem autoAudit_best_effort_failures :
    (∀ (e : String) (st : AuditState AutoAuditRow) (input : AutoAuditInput),
        writeAutoAuditEvent (.fails e) st input = (false, st))
    ∧ (∀ (b : InsertBehavior) (st : AuditState AutoAuditRow) (input : AutoAuditInput),
        (writeAutoAuditEvent b st input).1 = false → (writeAutoAuditEvent b st input).2 = st)
    ∧ (∀ (p : JsVal) (maxLen : Nat), jsStringify p = none →
        truncatePayload (some p) maxLen = some .errorMarker)
    ∧ (∀ (c : AuditRequestContext) (input : AutoAuditInput) (p : JsVal),
        input.requestBody = some p → jsStringify p = none →
        (deriveAutoRow c input).details.requestBody = some .errorMarker) := by
  refine ⟨?_, ?_, ?_, ?_⟩
  · intro e st input
    cases hc : st.ctx with
    | none => simp [writeAutoAuditEvent, getAuditContext, hc]
    | some c =>
      simp only [writeAutoAuditEvent, getAuditContext, hc]
      split
      · rfl
      · split
        · rfl
        · split
          · rfl
          · rfl
  · intro b st input h
    cases hc : st.ctx with
    | none => simp [writeAutoAuditEvent, getAuditContext, hc]
    | some c =>
      simp only [writeAutoAuditEvent, getAuditContext, hc] at h ⊢
      split at h <;> split <;> first
        | rfl
        | (split at h <;> split <;> first
            | rfl
            | (split at h <;> split <;> first
                | rfl
                | (cases b <;> simp_all)))
  · intro p maxLen h
    simp [truncatePayload, h]
  · intro c input p hreq hser
    rw [deriveAutoRow_requestBody, hreq]
    simp [truncatePayload, hser]

/-- Claim C3 witness: a concrete rejected insert reports 'not written' and
leaves the store untouched; a concrete serialization failure becomes the
error marker. -/
theorem autoAudit_best_effort_failures_witness :
    writeAutoAuditEvent (.fails "db down")
      { ctx := some samplePostCtx, events := [] } sampleOkInput
      = (false, { ctx := some samplePostCtx, events := [] })
    ∧ truncatePayload (some .junserializable) 4000 = some .errorMarker
    ∧ (deriveAutoRow samplePostCtx sampleUnserializableInput).details.requestBody
        = some .errorMarker :=
  ⟨autoAudit_best_effort_failures.1 "db down" _ sampleOkInput,
   autoAudit_best_effort_failures.2.2.1 .junserializable 4000 rfl,
   autoAudit_best_effort_failures.2.2.2 samplePostCtx sampleUnserializableInput
     .junserializable rfl rfl⟩

/-- Claim C8: a body payload whose serialization fits the cap is stored
unchanged; one exceeding the cap is replaced by the truncation marker
carrying the full serialized length and the length-capped prefix preview;
one whose serialization throws is replaced by the error marker; and each of
`requestBody` and `responseBody` is truncated independently by the deriver
with the fixed cap 4000. -/
theorem truncatePayload_cap_behavior :
    (∀ (p : JsVal) (s : String) (maxLen : Nat),
        jsStringify p = some s → s.length ≤ maxLen →
        truncatePayload (some p) maxLen = some (.kept p))
    ∧ (∀ (p : JsVal) (s : String) (maxLen : Nat),
        jsStringify p = some s → maxLen < s.length →
        truncatePayload (some p) maxLen = some (.truncated s.length (takeStr s maxLen)))
    ∧ (∀ (p : JsVal) (maxLen : Nat),
        jsStringify p = none → truncatePayload (some p) maxLen = some .errorMarker)
    ∧ (∀ (c : AuditRequestContext) (input : AutoAuditInput) (b : JsVal),
        input.requestBody = some b →
        (deriveAutoRow c input).details.requestBody = truncatePayload (some b) 4000)
    ∧ (∀ (c : AuditRequestContext) (input : AutoAuditInput) (b : JsVal),
        input.responseBody = some b →
        (deriveAutoRow c input).details.responseBody = truncatePayload (some b) 4000) := by
  refine ⟨?_, ?_, ?_, ?_, ?_⟩
  · intro p s maxLen h1 h2
    simp [truncatePayload, h1, h2]
  · intro p s maxLen h1 h2
    have h3 : ¬ (s.length ≤ maxLen) := by omega
    simp [truncatePayload, h1, h3]
  · intro p maxLen h
    simp [truncatePayload, h]
  · intro c input b h
    rw [deriveAutoRow_requestBody, h]
  · intro c input b h
    rw [deriveAutoRow_responseBody, h]

/-- Claim C8 witness: a short string is kept; with a small cap the marker
carries the original length and the prefix; the unserializable payload
becomes the error marker; the deriver applies the truncation to a concrete
request body. -/
theorem truncatePayload_cap_behavior_witness :
    truncatePayload (some (.jstr "abc")) 4000 = some (.kept (.jstr "abc"))
    ∧ truncatePayload (some (.jstr "abc")) 2 = some (.truncated 5 (takeStr "\"abc\"" 2))
    ∧ truncatePayload (some .junserializable) 7 = some .errorMarker
    ∧ (deriveAutoRow samplePostCtx
        { sampleOkInput with requestBody := some (.jstr "abc") }).details.requestBody
        = truncatePayload (some (.jstr "abc")) 4000 :=
  ⟨truncatePayload_cap_behavior.1 (.jstr "abc") "\"abc\"" 4000 rfl (by decide),
   truncatePayload_cap_behavior.2.1 (.jstr "abc") "\"abc\"" 2 rfl (by decide),
   truncatePayload_cap_behavior.2.2.1 .junserializable 7 rfl,
   truncatePayload_cap_behavior.2.2.2.1 samplePostCtx
     { sampleOkInput with requestBody := some (.jstr "abc") } (.jstr "abc") rfl⟩

/-- Claim C5: entity extraction strips the `/api/` namespace, drops the pack
segment, and classifies the final remaining segment: an id-looking segment
(UUID or numeric) becomes the `entityId` with the singularized preceding
segment (or the pack name when nothing precedes it) as kind; otherwise the
singularized final segment is the kind with no id; with no segments after
the pack, the pack name is the kind.  Singularization replaces trailing
`ies` with `y`, drops 2 characters from trailing `ses`/`xes`/`zes`, strips a
trailing `s` unless the word ends in `ss`, else leaves the word unchanged.
The claim's three examples evaluate as stated. -/
theorem extractEntity_heuristic :
    (∀ p, extractEntityFromPath p = extractFromSegments (pathSegments p))
    ∧ (∀ (pack : String) (rest : List String) (lastSeg kindSeg : String),
        rest.getLast? = some lastSeg → looksLikeId lastSeg = true →
        rest.dropLast.getLast? = some kindSeg →
        extractFromSegments (pack :: rest) = (singularize kindSeg, some lastSeg))
    ∧ (∀ (pack lastSeg : String), looksLikeId lastSeg = true →
        extractFromSegments [pack, lastSeg] = (pack, some lastSeg))
    ∧ (∀ (pack : String) (rest : List String) (lastSeg : String),
        rest.getLast? = some lastSeg → looksLikeId lastSeg = false →
        extractFromSegments (pack :: rest) = (singularize lastSeg, none))
    ∧ (∀ pack : String, extractFromSegments [pack] = (pack, none))
    ∧ (∀ w, strEndsWith w "ies" = true → singularize w = dropRightStr w 3 ++ "y")
    ∧ (∀ w, strEndsWith w "ies" = false →
        (strEndsWith w "ses" = true ∨ strEndsWith w "xes" = true
          ∨ strEndsWith w "zes" = true) →
        singularize w = dropRightStr w 2)
    ∧ (∀ w, strEndsWith w "ies" = false → strEndsWith w "ses" = false →
        strEndsWith w "xes" = false → strEndsWith w "zes" = false →
        strEndsWith w "s" = true → strEndsWith w "ss" = false →
        singularize w = dropRightStr w 1)
    ∧ (∀ w, strEndsWith w "ies" = false → strEndsWith w "ses" = false →
        strEndsWith w "xes" = false → strEndsWith w "zes" = false →
        (strEndsWith w "s" = false ∨ strEndsWith w "ss" = true) →
        singularize w = w)
    ∧ extractEntityFromPath "/api/crm/contacts/123" = ("contact", some "123")
    ∧ extractEntityFromPath "/api/forms/xyz/entries/456" = ("entry", some "456")
    ∧ extractEntityFromPath "/api/vault/folders/abc/items" = ("item", none) := by
  refine ⟨fun p => rfl, ?_, ?_, ?_, fun pack => rfl, ?_, ?_, ?_, ?_, rfl, rfl, rfl⟩
  · intro pack rest lastSeg kindSeg hlast hid hkind
    simp [extractFromSegments, hlast, hid, hkind]
  · intro pack lastSeg hid
    simp [extractFromSegments, hid]
  · intro pack rest lastSeg hlast hid
    simp [extractFromSegments, hlast, hid]
  · intro w h
    simp [singularize, h]
  · intro w h1 h2
    rcases h2 with h2 | h2 | h2 <;> simp [singularize, h1, h2]
  · intro w h1 h2 h3 h4 h5 h6
    simp [singularize, h1, h2, h3, h4, h5, h6]
  · intro w h1 h2 h3 h4 h5
    rcases h5 with h5 | h5 <;> simp [singularize, h1, h2, h3, h4, h5]

/-- Claim C5 witness: concrete instances of the general clauses — an
id-ending segment list, a bare pack-and-id path, and each singularization
rule at the spec's example words. -/
theorem extractEntity_heuristic_witness :
    extractFromSegments ["crm", "contacts", "123"] = (singularize "contacts", some "123")
    ∧ extractFromSegments ["crm", "42"] = ("crm", some "42")
    ∧ extractFromSegments ["crm", "contacts"] = (singularize "contacts", none)
    ∧ singularize "companies" = dropRightStr "companies" 3 ++ "y"
    ∧ singularize "boxes" = dropRightStr "boxes" 2
    ∧ singularize "cats" = dropRightStr "cats" 1
    ∧ singularize "class" = "class" :=
  ⟨extractEntity_heuristic.2.1 "crm" ["contacts", "123"] "123" "contacts" rfl (by decide) rfl,
   extractEntity_heuristic.2.2.1 "crm" "42" (by decide),
   extractEntity_heuristic.2.2.2.1 "crm" ["contacts"] "contacts" rfl (by decide),
   extractEntity_heuristic.2.2.2.2.2.1 "companies" (by decide),
   extractEntity_heuristic.2.2.2.2.2.2.1 "boxes" (by decide) (Or.inr (Or.inl (by decide))),
   extractEntity_heuristic.2.2.2.2.2.2.2.1 "cats" (by decide) (by decide) (by decide)
     (by decide) (by decide) (by decide),
   extractEntity_heuristic.2.2.2.2.2.2.2.2.1 "class" (by decide) (by decide) (by decide)
     (by decide) (Or.inr (by decide))⟩

/-- Membership in the accumulator-threaded id-collection fold: an id is
collected exactly when it was already in the accumulator or occurs non-empty
in the column list. -/
theorem mem_foldl_collectIdsStep (l : List (Option String)) :
    ∀ (acc : List String) (v : String),
      v ∈ l.foldl collectIdsStep acc ↔ v ∈ acc ∨ (v ≠ "" ∧ some v ∈ l) := by
  induction l with
  | nil => intro acc v; simp
  | cons o rest ih =>
    intro acc v
    cases o with
    | none =>
      simp only [List.foldl_cons, collectIdsStep]
      rw [ih]
      simp
    | some w =>
      simp only [List.foldl_cons, collectIdsStep]
      by_cases hw : w ≠ "" ∧ w ∉ acc
      · rw [if_pos hw, ih]
        simp only [List.mem_append, List.mem_singleton, List.mem_cons,
          Option.some.injEq, List.not_mem_nil, or_false]
        constructor
        · rintro ((h | h) | ⟨hne, h⟩)
          · exact Or.inl h
          · exact Or.inr ⟨h ▸ hw.1, Or.inl h⟩
          · exact Or.inr ⟨hne, Or.inr h⟩
        · rintro (h | ⟨hne, h | h⟩)
          · exact Or.inl (Or.inl h)
          · exact Or.inl (Or.inr h)
          · exact Or.inr ⟨hne, h⟩
      · rw [if_neg hw, ih]
        simp only [List.mem_cons, Option.some.injEq]
        constructor
        · rintro (h | ⟨hne, h⟩)
          · exact Or.inl h
          · exact Or.inr ⟨hne, Or.inr h⟩
        · rintro (h | ⟨hne, h | h⟩)
          · exact Or.inl h
          · rcases not_and_or.mp hw with hw0 | hw0
            · exact absurd (h ▸ not_not.mp hw0) hne
            · exact Or.inl (h ▸ not_not.mp hw0)
          · exact Or.inr ⟨hne, h⟩

/-- Membership in one dimension of the caller's collected scope ids. -/
theorem mem_collect_dim (rows : List OrgAssignment) (sub : String)
    (dim : OrgAssignment → Option String) (v : String) :
    v ∈ collectIds ((rows.filter fun r => r.userKey == sub).map dim) ↔
      v ≠ "" ∧ ∃ r, r ∈ rows ∧ r.userKey = sub ∧ dim r = some v := by
  unfold collectIds
  rw [mem_foldl_collectIdsStep]
  simp only [List.not_mem_nil, false_or]
  constructor
  · rintro ⟨hne, hmem⟩
    rw [List.mem_map] at hmem
    obtain ⟨r, hr, hdim⟩ := hmem
    rw [List.mem_filter] at hr
    exact ⟨hne, r, hr.1, by simpa using hr.2, hdim⟩
  · rintro ⟨hne, r, hr, hkey, hdim⟩
    refine ⟨hne, ?_⟩
    rw [List.mem_map]
    exact ⟨r, List.mem_filter.mpr ⟨hr, by simpa using hkey⟩, hdim⟩

/-- The correlated `exists` sub-predicate holds exactly when the event has an
actor with an assignment row whose dimension id is among the given ids. -/
theorem existsOrgMatch_iff (rows : List OrgAssignment) (dim : OrgAssignment → Option String)
    (ids : List String) (ev : Option String) :
    existsOrgMatch rows dim ids ev = true ↔
      ∃ aid, ev = some aid ∧ ∃ r, r ∈ rows ∧ r.userKey = aid ∧
        ∃ v, dim r = some v ∧ v ∈ ids := by
  cases ev with
  | none => simp [existsOrgMatch]
  | some aid =>
    simp only [existsOrgMatch, List.any_eq_true, Bool.and_eq_true, beq_iff_eq,
      Option.some.injEq]
    constructor
    · rintro ⟨r, hr, hkey, hmatch⟩
      refine ⟨aid, rfl, r, hr, hkey, ?_⟩
      cases hd : dim r with
      | none => rw [hd] at hmatch; exact absurd hmatch (by simp)
      | some v =>
        rw [hd] at hmatch
        exact ⟨v, rfl, List.elem_iff.mp hmatch⟩
    · rintro ⟨a, ha, r, hr, hkey, v, hdim, hv⟩
      subst ha
      refine ⟨r, hr, hkey, ?_⟩
      rw [hdim]
      exact List.elem_iff.mpr hv

/-- With an empty id list the correlated `exists` sub-predicate is false. -/
theorem existsOrgMatch_nil (rows : List OrgAssignment) (dim : OrgAssignment → Option String)
    (ev : Option String) : existsOrgMatch rows dim [] ev = false := by
  cases hb : existsOrgMatch rows dim [] ev with
  | false => rfl
  | true =>
    obtain ⟨aid, -, r, -, -, v, -, hv⟩ := (existsOrgMatch_iff rows dim [] ev).mp hb
    exact absurd hv (List.not_mem_nil v)

/-- The conditionally assembled `ldd` predicate equals the unconditional
disjunction of the own condition and the three `exists` parts (an omitted
part is false anyway because its id list is empty). -/
theorem lddScopePredicate_norm (rows : List OrgAssignment) (sub : String)
    (ev : Option String) :
    lddScopePredicate rows sub ev =
      (ownScopePredicate sub ev
        || existsOrgMatch rows (·.divisionId) (fetchUserOrgScopeIds rows sub).divisionIds ev
        || existsOrgMatch rows (·.departmentId)
            (fetchUserOrgScopeIds rows sub).departmentIds ev
        || existsOrgMatch rows (·.locationId)
            (fetchUserOrgScopeIds rows sub).locationIds ev) := by
  unfold lddScopePredicate
  by_cases h1 : (fetchUserOrgScopeIds rows sub).divisionIds = [] <;>
    by_cases h2 : (fetchUserOrgScopeIds rows sub).departmentIds = [] <;>
      by_cases h3 : (fetchUserOrgScopeIds rows sub).locationIds = [] <;>
        simp [h1, h2, h3, existsOrgMatch_nil, Bool.or_assoc, Bool.or_comm,
          Bool.or_left_comm]

/-- Claim C7: under `ldd` scope the compiled predicate accepts exactly the
events whose actor is the caller, or whose actor has an assignment row
sharing a division, department, or location id with the caller's collected
scope ids; the collected ids are exactly the non-empty ids on the caller's
own assignment rows; and a caller with no ids in any dimension degrades the
predicate to the `own` condition alone. -/
theorem lddPredicate_characterization :
    (∀ (rows : List OrgAssignment) (sub : String) (ev : Option String), sub ≠ "" →
      (lddScopePredicate rows sub ev = true ↔
        (ev = some sub
         ∨ (∃ aid, ev = some aid ∧ ∃ r, r ∈ rows ∧ r.userKey = aid ∧
              ∃ v, r.divisionId = some v
                ∧ v ∈ (fetchUserOrgScopeIds rows sub).divisionIds)
         ∨ (∃ aid, ev = some aid ∧ ∃ r, r ∈ rows ∧ r.userKey = aid ∧
              ∃ v, r.departmentId = some v
                ∧ v ∈ (fetchUserOrgScopeIds rows sub).departmentIds)
         ∨ (∃ aid, ev = some aid ∧ ∃ r, r ∈ rows ∧ r.userKey = aid ∧
              ∃ v, r.locationId = some v
                ∧ v ∈ (fetchUserOrgScopeIds rows sub).locationIds))))
    ∧ (∀ rows sub v, v ∈ (fetchUserOrgScopeIds rows sub).divisionIds ↔
        v ≠ "" ∧ ∃ r, r ∈ rows ∧ r.userKey = sub ∧ r.divisionId = some v)
    ∧ (∀ rows sub v, v ∈ (fetchUserOrgScopeIds rows sub).departmentIds ↔
        v ≠ "" ∧ ∃ r, r ∈ rows ∧ r.userKey = sub ∧ r.departmentId = some v)
    ∧ (∀ rows sub v, v ∈ (fetchUserOrgScopeIds rows sub).locationIds ↔
        v ≠ "" ∧ ∃ r, r ∈ rows ∧ r.userKey = sub ∧ r.locationId = some v)
    ∧ (∀ (rows : List OrgAssignment) (sub : String) (ev : Option String),
        (fetchUserOrgScopeIds rows sub).divisionIds = [] →
        (fetchUserOrgScopeIds rows sub).departmentIds = [] →
        (fetchUserOrgScopeIds rows sub).locationIds = [] →
        lddScopePredicate rows sub ev = ownScopePredicate sub ev)
    ∧ (∀ (sub : String) (ev : Option String), sub ≠ "" →
        (ownScopePredicate sub ev = true ↔ ev = some sub)) := by
  refine ⟨?_, ?_, ?_, ?_, ?_, ?_⟩
  · intro rows sub ev hsub
    rw [lddScopePredicate_norm]
    have hown : ownScopePredicate sub ev = true ↔ ev = some sub := by
      simp [ownScopePredicate, hsub]
    simp only [Bool.or_eq_true, hown, existsOrgMatch_iff]
    simp only [or_assoc]
  · intro rows sub v; exact mem_collect_dim rows sub (fun r => r.divisionId) v
  · intro rows sub v; exact mem_collect_dim rows sub (fun r => r.departmentId) v
  · intro rows sub v; exact mem_collect_dim rows sub (fun r => r.locationId) v
  · intro rows sub ev h1 h2 h3
    rw [lddScopePredicate_norm, h1, h2, h3]
    simp [existsOrgMatch_nil]
  · intro sub ev hsub
    simp [ownScopePredicate, hsub]

/-- Claim C7 witness: for a caller with no assignment rows the predicate
collapses to the own condition, and the own condition at the caller's own
event is the identity comparison. -/
theorem lddPredicate_characterization_witness :
    lddScopePredicate [] "u" (some "u") = ownScopePredicate "u" (some "u")
    ∧ (ownScopePredicate "u" (some "w") = true ↔ (some "w" : Option String) = some "u") :=
  ⟨lddPredicate_characterization.2.2.2.2.1 [] "u" (some "u") rfl rfl rfl,
   lddPredicate_characterization.2.2.2.2.2 "u" (some "w") (by decide)⟩
